import Mathlib

/-!
Verification of the PyRDP MITM core against its specification.

The development shallowly embeds the Python sources:
  * `pyrdp/mitm/virtual_channel/device_redirection.py` (`PassiveFileStealer`),
  * `pyrdp/mitm/client.py` (`MITMClient`),
  * `pyrdp/layer/recording.py` (player message types).

Python dictionaries are embedded as association lists with first-match lookup,
`BytesIO` buffers as `List Nat` of bytes with an explicit seek-and-write
operation, and Python exceptions (in particular `KeyError` raised by a failed
`d[k]` lookup) as `Except`.  The client-side and server-side stealer observers
form a peer pair in which requests are registered, through the `peer`
reference, in the map of the observer that later receives the responses; the
combined system is therefore modelled by a single `StealerState`, the state of
the response-side observer.
-/

/-! ## Bit operations

Python `x &= ~m` on nonnegative integers clears exactly the bits of `m`.
Since `x &&& m` is a sub-mask of `x`, xor-ing it away yields the same result,
using only kernel-accelerated `Nat` operations. -/

def andNot (x m : Nat) : Nat := x ^^^ (x &&& m)

/-! ## Python dictionaries as association lists -/

def alFind? {κ α : Type} [DecidableEq κ] (k : κ) : List (κ × α) → Option α
  | [] => none
  | (k2, v) :: rest => if k2 = k then some v else alFind? k rest

def alErase {κ α : Type} [DecidableEq κ] (k : κ) : List (κ × α) → List (κ × α)
  | [] => []
  | (k2, v) :: rest => if k2 = k then alErase k rest else (k2, v) :: alErase k rest

def alInsert {κ α : Type} [DecidableEq κ] (k : κ) (v : α) (l : List (κ × α)) : List (κ × α) :=
  (k, v) :: alErase k l

/-! ## Strings and path sanitization

Character strings are embedded as lists of code units (`List Nat`). -/

/-- Modelled from the spec: `decodeUTF16LE` lives in `pyrdp.core`, which is not
under `src/`; the spec says only "decode UTF-16LE".  Byte pairs are decoded
little-endian into 16-bit code units; a trailing odd byte is ignored. -/
def decodeUTF16LE : List Nat → List Nat
  | b0 :: b1 :: rest => (b0 + 256 * b1) :: decodeUTF16LE rest
  | _ => []

/-- Embeds Python `s.strip("\x00")`, which removes the character from BOTH
ends of the string. -/
def stripNul (l : List Nat) : List Nat :=
  ((l.dropWhile (· = 0)).reverse.dropWhile (· = 0)).reverse

/-- Trailing-only trimming, as the words of claim C8 describe it. -/
def trimTrailingNul (l : List Nat) : List Nat :=
  (l.reverse.dropWhile (· = 0)).reverse

/-- Embeds Python `path.replace("\\", "/")` (code units: 92 to 47). -/
def replaceBackslash (l : List Nat) : List Nat :=
  l.map (fun c => if c = 92 then 47 else c)

/-- Embeds Python `path.replace("..", "")`: leftmost non-overlapping
occurrences of two consecutive dots (code unit 46) are deleted in one
left-to-right pass. -/
def removeDotDot : List Nat → List Nat
  | 46 :: 46 :: rest => removeDotDot rest
  | c :: rest => c :: removeDotDot rest
  | [] => []

/-- Code units of the string literal prefix in `writeToDisk`. -/
def savedFilesPrefix : List Nat :=
  [46, 47, 115, 97, 118, 101, 100, 95, 102, 105, 108, 101, 115, 47]

/-- Embeds `PassiveFileStealer.bytesToPath`:
`decodeUTF16LE(pathAsBytes).strip("\x00")`. -/
def bytesToPath (pathAsBytes : List Nat) : List Nat :=
  stripNul (decodeUTF16LE pathAsBytes)

/-- Embeds the `goodPath` computation of `PassiveFileStealer.writeToDisk`:
`"./saved_files/" + path.replace("\\", "/").replace("..", "")`. -/
def goodPath (path : List Nat) : List Nat :=
  savedFilesPrefix ++ removeDotDot (replaceBackslash path)

/-- The complete on-disk path the stealer uses for a remote path, as the
composition of `bytesToPath` and the `writeToDisk` sanitization. -/
def onDiskPath (pathAsBytes : List Nat) : List Nat :=
  goodPath (bytesToPath pathAsBytes)

/-- The on-disk path exactly as the words of claim C8 describe it: decode
UTF-16LE, trim TRAILING NULs only, replace backslashes, remove "..",
prepend the prefix. -/
def claimDiskPath (pathAsBytes : List Nat) : List Nat :=
  savedFilesPrefix ++ removeDotDot (replaceBackslash (trimTrailingNul (decodeUTF16LE pathAsBytes)))

/-- The on-disk path as the amended claim describes it: like `claimDiskPath`
but with LEADING NULs trimmed as well (Python `strip` trims both ends). -/
def amendedDiskPath (pathAsBytes : List Nat) : List Nat :=
  savedFilesPrefix ++
    removeDotDot (replaceBackslash (trimTrailingNul ((decodeUTF16LE pathAsBytes).dropWhile (· = 0))))

/-! ## BytesIO buffers -/

/-- Embeds `stream.seek(offset); stream.write(data)` on a `BytesIO` holding
`buf`: the gap between the end of the buffer and `offset` (if any) is filled
with zero bytes, then `data` overwrites the region starting at `offset`. -/
def writeAt (buf : List Nat) (offset : Nat) (data : List Nat) : List Nat :=
  let ext := buf ++ List.replicate (offset - buf.length) 0
  ext.take offset ++ data ++ ext.drop (offset + data.length)

/-! ## RDPDR constants

Modelled from the spec: `pyrdp.enum` is not under `src/`; the numeric values
are those of MS-RDPEFS / MS-RDPBCGR and none of the claims depends on them. -/

def GENERIC_READ : Nat := 0x80000000
def FILE_READ_DATA : Nat := 0x00000001
def FILE_NON_DIRECTORY_FILE : Nat := 0x00000040

/-! ## RDPDR PDUs -/

inductive DeviceIORequestPDU : Type
  | read (completionId fileId offset length : Nat)
  | create (completionId desiredAccess createOptions : Nat) (path : List Nat)
  | close (completionId fileId : Nat)
  | other (completionId majorFunction : Nat)
deriving DecidableEq

def DeviceIORequestPDU.completionId : DeviceIORequestPDU → Nat
  | .read c _ _ _ => c
  | .create c _ _ _ => c
  | .close c _ => c
  | .other c _ => c

structure DeviceIOResponsePDU : Type where
  completionId : Nat
  ioStatus : Nat
  payload : List Nat
deriving DecidableEq

inductive DeviceRedirectionPDU : Type
  | ioRequest (req : DeviceIORequestPDU)
  | ioResponse (resp : DeviceIOResponsePDU)
  | deviceListAnnounce (deviceIds : List Nat)
  | serverCapabilities
  | clientCapabilities
  | readResponse (completionId ioStatus : Nat) (readData : List Nat)
  | createResponse (completionId ioStatus fileId : Nat)
  | otherPDU (packetId : Nat)
deriving DecidableEq

/-- Little-endian 32-bit decode of the first four payload bytes (absent bytes
count as zero). -/
def leU32 (bs : List Nat) : Nat :=
  bs.getD 0 0 + 256 * bs.getD 1 0 + 65536 * bs.getD 2 0 + 16777216 * bs.getD 3 0

/-- Modelled from the spec: `DeviceRedirectionParser.parseReadResponse`
(`pyrdp.parser`, not under `src/`).  A read response carries its data in the
response payload; the parsed PDU keeps completionId and ioStatus and exposes
the payload as `readData`. -/
def parseReadResponse (p : DeviceIOResponsePDU) : DeviceRedirectionPDU :=
  .readResponse p.completionId p.ioStatus p.payload

/-- Data written by the stealer for a read response (the `readData` field of
the parsed response). -/
def readDataOf (p : DeviceIOResponsePDU) : List Nat := p.payload

/-- Modelled from the spec: `DeviceRedirectionParser.parseDeviceCreateResponse`
(`pyrdp.parser`, not under `src/`).  A create response carries the allocated
`fileId` as a 32-bit little-endian integer at the start of its payload. -/
def parseDeviceCreateResponse (p : DeviceIOResponsePDU) : DeviceRedirectionPDU :=
  .createResponse p.completionId p.ioStatus (leU32 p.payload)

/-- The fileId carried by a create response. -/
def fileIdOf (p : DeviceIOResponsePDU) : Nat := leU32 p.payload

/-! ## PassiveFileStealer state machine -/

inductive StealerError : Type
  | keyError
deriving DecidableEq

structure StealerState : Type where
  completionIdInProgress : List (Nat × DeviceIORequestPDU)
  openedFiles : List (Nat × List Nat)
  finalFiles : List (List Nat × List Nat)
deriving DecidableEq

structure StepResult : Type where
  state : StealerState
  sent : DeviceRedirectionPDU
  written : List (List Nat × List Nat)
deriving DecidableEq

/-- Embeds `PassiveFileStealer.handleIORequest`.  The request is registered in
the peer's `completionIdInProgress` (the single combined `StealerState`).  For
a `DeviceReadRequestPDU` the source then evaluates the f-string
`f"ReadRequest received for file {self.peer.openedFiles[pdu.fileId]}"`, whose
dictionary lookup raises `KeyError` when the fileId is not an opened file. -/
def handleIORequest (s : StealerState) (req : DeviceIORequestPDU) :
    Except StealerError StealerState :=
  let s2 : StealerState :=
    { s with completionIdInProgress := alInsert req.completionId req s.completionIdInProgress }
  match req with
  | .read _ fileId _ _ =>
    match alFind? fileId s2.openedFiles with
    | some _ => .ok s2
    | none => .error .keyError
  | _ => .ok s2

/-- Embeds `PassiveFileStealer.handleIOResponse` together with the three
specific handlers it dispatches to.  The result carries the new state, the
overriding `pduToSend` set by `handleReadResponse` / `handleCreateResponse`
(if any), and the list of `(path, bytes)` pairs passed to `writeToDisk`.
In `handleReadResponse` the lookup `self.openedFiles[requestPDU.fileId]`
raises `KeyError` when the fileId is not an opened file. -/
def handleIOResponse (s : StealerState) (resp : DeviceIOResponsePDU) :
    Except StealerError (StealerState × Option DeviceRedirectionPDU × List (List Nat × List Nat)) :=
  match alFind? resp.completionId s.completionIdInProgress with
  | none => .ok (s, none, [])
  | some requestPDU =>
    match requestPDU with
    | .read _ fileId offset _ =>
      match alFind? fileId s.openedFiles with
      | none => .error .keyError
      | some pathBytes =>
        let fileName := bytesToPath pathBytes
        let buf := (alFind? fileName s.finalFiles).getD []
        .ok ({ completionIdInProgress := alErase resp.completionId s.completionIdInProgress,
               openedFiles := s.openedFiles,
               finalFiles := alInsert fileName (writeAt buf offset (readDataOf resp)) s.finalFiles },
             some (parseReadResponse resp), [])
    | .create _ desiredAccess createOptions path =>
      let opened :=
        if desiredAccess &&& (GENERIC_READ ||| FILE_READ_DATA) ≠ 0 ∧
           createOptions &&& FILE_NON_DIRECTORY_FILE ≠ 0 then
          alInsert (fileIdOf resp) path s.openedFiles
        else s.openedFiles
      .ok ({ completionIdInProgress := alErase resp.completionId s.completionIdInProgress,
             openedFiles := opened,
             finalFiles := s.finalFiles },
           some (parseDeviceCreateResponse resp), [])
    | .close _ fileId =>
      match alFind? fileId s.openedFiles with
      | none =>
        .ok ({ s with completionIdInProgress := alErase resp.completionId s.completionIdInProgress },
             none, [])
      | some pathBytes =>
        let path := bytesToPath pathBytes
        let writes :=
          match alFind? path s.finalFiles with
          | some buf => [(goodPath path, buf)]
          | none => []
        .ok ({ completionIdInProgress := alErase resp.completionId s.completionIdInProgress,
               openedFiles := alErase fileId s.openedFiles,
               finalFiles := s.finalFiles },
             none, writes)
    | .other _ _ =>
      .ok ({ s with completionIdInProgress := alErase resp.completionId s.completionIdInProgress },
           none, [])

/-- Embeds `PassiveFileStealer.onPDUReceived`: dispatch on the PDU class,
then forward `pduToSend` (the received PDU unless a handler replaced it) to
the peer.  A raised error aborts the call before anything is sent. -/
def onPDUReceived (s : StealerState) (pdu : DeviceRedirectionPDU) :
    Except StealerError StepResult :=
  match pdu with
  | .ioRequest req =>
    match handleIORequest s req with
    | .error e => .error e
    | .ok s2 => .ok ⟨s2, pdu, []⟩
  | .ioResponse resp =>
    match handleIOResponse s resp with
    | .error e => .error e
    | .ok (s2, override, writes) => .ok ⟨s2, override.getD pdu, writes⟩
  | _ => .ok ⟨s, pdu, []⟩

/-- Processes a list of PDUs in order, accumulating the disk writes. -/
def processTrace (s : StealerState) :
    List DeviceRedirectionPDU → Except StealerError (StealerState × List (List Nat × List Nat))
  | [] => .ok (s, [])
  | pdu :: rest =>
    match onPDUReceived s pdu with
    | .error e => .error e
    | .ok r =>
      match processTrace r.state rest with
      | .error e => .error e
      | .ok (s2, ws) => .ok (s2, r.written ++ ws)

def isOkE {ε α : Type} : Except ε α → Bool
  | .ok _ => true
  | .error _ => false

/-- The exact situations in which `onPDUReceived` raises a `KeyError` that
escapes the stealer: a read request whose fileId is not an opened file of the
peer, and a response matched to an in-progress read request whose fileId is
not an opened file. -/
def raisesKeyError (s : StealerState) (pdu : DeviceRedirectionPDU) : Bool :=
  match pdu with
  | .ioRequest (.read _ fileId _ _) => (alFind? fileId s.openedFiles).isNone
  | .ioResponse resp =>
    match alFind? resp.completionId s.completionIdInProgress with
    | some (.read _ fileId _ _) => (alFind? fileId s.openedFiles).isNone
    | _ => false
  | _ => false

/-- The situations in which `onPDUReceived` forwards a re-parsed PDU instead
of the received one: a response matched to an in-progress read or create
request. -/
def reparsedByStealer (s : StealerState) (pdu : DeviceRedirectionPDU) : Bool :=
  match pdu with
  | .ioResponse resp =>
    match alFind? resp.completionId s.completionIdInProgress with
    | some (.read _ _ _ _) => true
    | some (.create _ _ _ _) => true
    | _ => false
  | _ => false

/-! ## Trace generators for the file-exfiltration claims -/

/-- Alternating read request / read response pairs whose offsets tile the
file: each request reads `data.length` bytes at the running offset and its
response returns `data`. -/
def readPairs (fileId : Nat) (offset : Nat) :
    List (Nat × List Nat) → List DeviceRedirectionPDU
  | [] => []
  | (cid, data) :: rest =>
    .ioRequest (.read cid fileId offset data.length)
      :: .ioResponse ⟨cid, 0, data⟩
      :: readPairs fileId (offset + data.length) rest

/-- A complete Create / Read* / Close trace with alternating read pairs. -/
def c1Trace (createCid closeCid acc opts fid : Nat)
    (path respPayload closePayload : List Nat) (pairs : List (Nat × List Nat)) :
    List DeviceRedirectionPDU :=
  .ioRequest (.create createCid acc opts path)
    :: .ioResponse ⟨createCid, 0, respPayload⟩
    :: (readPairs fid 0 pairs ++
        [.ioRequest (.close closeCid fid), .ioResponse ⟨closeCid, 0, closePayload⟩])

/-- All read requests of a batch, in list order; `p = (cid, offset, data)`. -/
def readRequests (fileId : Nat) : List (Nat × Nat × List Nat) → List DeviceRedirectionPDU
  | [] => []
  | p :: rest => .ioRequest (.read p.1 fileId p.2.1 p.2.2.length) :: readRequests fileId rest

/-- All read responses of a batch, in list order. -/
def readResponses : List (Nat × Nat × List Nat) → List DeviceRedirectionPDU
  | [] => []
  | p :: rest => .ioResponse ⟨p.1, 0, p.2.2⟩ :: readResponses rest

/-- A Create / Read* / Close trace in which all read requests are sent first
and the read responses arrive in a possibly different order. -/
def c5Trace (createCid closeCid acc opts fid : Nat)
    (path respPayload closePayload : List Nat)
    (reqOrder respOrder : List (Nat × Nat × List Nat)) : List DeviceRedirectionPDU :=
  .ioRequest (.create createCid acc opts path)
    :: .ioResponse ⟨createCid, 0, respPayload⟩
    :: (readRequests fid reqOrder ++ readResponses respOrder ++
        [.ioRequest (.close closeCid fid), .ioResponse ⟨closeCid, 0, closePayload⟩])

/-- The map obtained by registering every read request of a batch. -/
def insertRequests (fileId : Nat) : List (Nat × Nat × List Nat) →
    List (Nat × DeviceIORequestPDU) → List (Nat × DeviceIORequestPDU)
  | [], m => m
  | p :: rest, m => insertRequests fileId rest (alInsert p.1 (.read p.1 fileId p.2.1 p.2.2.length) m)

/-! ## MITMClient: client info credential replacement -/

def INFO_AUTOLOGON : Nat := 0x00000008
def INFO_COMPRESSION : Nat := 0x00000080
def INFO_CompressionTypeMask : Nat := 0x00001E00

structure ClientInfoPDU : Type where
  username : String
  password : String
  flags : Nat
  extraData : Nat
deriving DecidableEq

/-- Embeds `MITMClient.onClientInfoPDUReceived`: optionally replace the
username and the password, set `INFO_AUTOLOGON` when both replacements are
configured, then always clear `INFO_COMPRESSION` and the compression-type
mask; the result is the PDU handed to `securityLayer.sendClientInfo`. -/
def onClientInfoPDUReceived (replacementUsername replacementPassword : Option String)
    (pdu : ClientInfoPDU) : ClientInfoPDU :=
  let pdu1 :=
    match replacementUsername with
    | some u => { pdu with username := u }
    | none => pdu
  let pdu2 :=
    match replacementPassword with
    | some p => { pdu1 with password := p }
    | none => pdu1
  let pdu3 :=
    if replacementUsername.isSome && replacementPassword.isSome then
      { pdu2 with flags := pdu2.flags ||| INFO_AUTOLOGON }
    else pdu2
  let pdu4 := { pdu3 with flags := andNot pdu3.flags INFO_COMPRESSION }
  { pdu4 with flags := andNot pdu4.flags INFO_CompressionTypeMask }

/-! ## MITMClient: connect initial recording and mutation -/

def RNS_UD_CS_WANT_32BPP_SESSION : Nat := 0x0002

/-- Player message types, from `pyrdp/layer/recording.py`. -/
inductive PlayerMessageType : Type
  | CONNECTION_CLOSE
  | CLIENT_INFO
  | SLOW_PATH_PDU
  | FAST_PATH_INPUT
  | FAST_PATH_OUTPUT
  | CLIPBOARD_DATA
  | CLIENT_DATA
deriving DecidableEq

structure ClientDataCore : Type where
  earlyCapabilityFlags : Nat
  otherCoreFields : Nat
deriving DecidableEq

structure ClientDataPDU : Type where
  coreData : ClientDataCore
  networkData : Option (List Nat)
deriving DecidableEq

structure ConnectInitialResult : Type where
  recordedType : PlayerMessageType
  recordedData : ClientDataPDU
  forwarded : ClientDataPDU
  channelDefinitions : List Nat
deriving DecidableEq

/-- Embeds `MITMClient.onConnectInitial`.  The source first calls
`self.recorder.record(clientData, PlayerMessageType.CLIENT_DATA)` and only
afterwards clears `RNS_UD_CS_WANT_32BPP_SESSION` from
`earlyCapabilityFlags`.  Modelled from the spec: `Recorder.record`
(`pyrdp.recording`, not under `src/`) serializes the PDU immediately (spec
section 4.8, step 1), so the recorded event is a snapshot of the PDU at
record time, before the mutation. -/
def onConnectInitial (channelDefinitions : List Nat) (clientData : ClientDataPDU) :
    ConnectInitialResult :=
  { recordedType := .CLIENT_DATA,
    recordedData := clientData,
    forwarded :=
      { clientData with
        coreData :=
          { clientData.coreData with
            earlyCapabilityFlags :=
              andNot clientData.coreData.earlyCapabilityFlags RNS_UD_CS_WANT_32BPP_SESSION } },
    channelDefinitions :=
      match clientData.networkData with
      | some defs => defs
      | none => channelDefinitions }

/-! ## MITMClient: connection confirm handling -/

def TYPE_RDP_NEG_FAILURE : Nat := 3

/-- Modelled from the spec: the negotiation response parsed by
`NegotiationResponseParser` (`pyrdp.parser`, not under `src/`) exposes its
type and whether TLS was selected. -/
structure NegotiationResponse : Type where
  respType : Nat
  tlsSelected : Bool
deriving DecidableEq

inductive ClientConfirmAction : Type
  | logNegotiationFailure
  | startTLS
  | forwardConnectionConfirm
  | disconnect
deriving DecidableEq

/-- Embeds `MITMClient.onConnectionConfirm` as the ordered list of actions it
performs, paired with the resulting `useTLS` flag: log on a
`TYPE_RDP_NEG_FAILURE` response, start TLS when selected, and in every case
forward the Connection Confirm to the server side (`self.server`).  No path
calls `disconnect`. -/
def onConnectionConfirm (response : NegotiationResponse) :
    List ClientConfirmAction × Bool :=
  ((if response.respType = TYPE_RDP_NEG_FAILURE then [.logNegotiationFailure] else []) ++
     (if response.tlsSelected then [.startTLS] else []) ++
     [.forwardConnectionConfirm],
   response.tlsSelected)

/-! ## Bit-level lemmas about `andNot` -/

theorem testBit_andNot (x m i : Nat) :
    (andNot x m).testBit i = (x.testBit i && !(m.testBit i)) := by
  simp only [andNot, Nat.testBit_xor, Nat.testBit_and]
  cases x.testBit i <;> cases m.testBit i <;> rfl

theorem andNot_andNot (x a b : Nat) : andNot (andNot x a) b = andNot x (a ||| b) := by
  apply Nat.eq_of_testBit_eq
  intro i
  simp only [testBit_andNot, Nat.testBit_or]
  cases x.testBit i <;> cases a.testBit i <;> cases b.testBit i <;> rfl

theorem andNot_and_self (x m : Nat) : andNot x m &&& m = 0 := by
  apply Nat.eq_of_testBit_eq
  intro i
  simp only [Nat.testBit_and, testBit_andNot, Nat.zero_testBit]
  cases x.testBit i <;> cases m.testBit i <;> rfl

theorem andNot_and_of_subset (x m k : Nat) (h : k &&& m = k) : andNot x m &&& k = 0 := by
  apply Nat.eq_of_testBit_eq
  intro i
  have h2 : (k.testBit i && m.testBit i) = k.testBit i := by
    have h3 := congrArg (fun n => Nat.testBit n i) h
    simpa only [Nat.testBit_and] using h3
  simp only [Nat.testBit_and, testBit_andNot, Nat.zero_testBit]
  cases hx : x.testBit i <;> cases hm : m.testBit i <;> cases hk : k.testBit i <;>
    simp_all

theorem andNot_or_and_self (f a m : Nat) (h : a &&& m = 0) :
    andNot (f ||| a) m &&& a = a := by
  apply Nat.eq_of_testBit_eq
  intro i
  have h2 : (a.testBit i && m.testBit i) = false := by
    have h3 := congrArg (fun n => Nat.testBit n i) h
    simpa only [Nat.testBit_and, Nat.zero_testBit] using h3
  simp only [Nat.testBit_and, testBit_andNot, Nat.testBit_or]
  cases hf : f.testBit i <;> cases ha : a.testBit i <;> cases hm : m.testBit i <;>
    simp_all

/-! ## Claim C2: credential replacement -/

/-- C2: for every ClientInfoPDU received from the victim, if a replacement
username and a replacement password are both configured then the PDU
forwarded to the server carries them and has `INFO_AUTOLOGON` set, and in
every case `INFO_COMPRESSION` and the compression-type mask are cleared in
the forwarded PDU. -/
theorem c2_credential_replacement (ru rp : Option String) (pdu : ClientInfoPDU) :
    ((onClientInfoPDUReceived ru rp pdu).flags &&& INFO_COMPRESSION = 0 ∧
      (onClientInfoPDUReceived ru rp pdu).flags &&& INFO_CompressionTypeMask = 0) ∧
    (∀ u p, ru = some u → rp = some p →
      (onClientInfoPDUReceived ru rp pdu).username = u ∧
      (onClientInfoPDUReceived ru rp pdu).password = p ∧
      (onClientInfoPDUReceived ru rp pdu).flags &&& INFO_AUTOLOGON = INFO_AUTOLOGON) := by
  constructor
  · simp only [onClientInfoPDUReceived]
    rw [andNot_andNot]
    exact ⟨andNot_and_of_subset _ _ _ (by decide), andNot_and_of_subset _ _ _ (by decide)⟩
  · intro u p hu hp
    subst hu
    subst hp
    simp only [onClientInfoPDUReceived, Option.isSome_some, Bool.and_self, if_true]
    refine ⟨trivial, trivial, ?_⟩
    rw [andNot_andNot]
    exact andNot_or_and_self _ _ _ (by decide)

theorem c2_witness :
    ((onClientInfoPDUReceived (some "u") (some "p") ⟨"a", "b", 65535, 0⟩).username = "u" ∧
      (onClientInfoPDUReceived (some "u") (some "p") ⟨"a", "b", 65535, 0⟩).password = "p" ∧
      (onClientInfoPDUReceived (some "u") (some "p") ⟨"a", "b", 65535, 0⟩).flags &&&
        INFO_AUTOLOGON = INFO_AUTOLOGON) ∧
    (onClientInfoPDUReceived (some "u") (some "p") ⟨"a", "b", 65535, 0⟩).flags &&&
      INFO_COMPRESSION = 0 :=
  ⟨(c2_credential_replacement (some "u") (some "p") ⟨"a", "b", 65535, 0⟩).2 "u" "p" rfl rfl,
    (c2_credential_replacement (some "u") (some "p") ⟨"a", "b", 65535, 0⟩).1.1⟩

/-! ## Claim C9: no replacement configured -/

/-- C9: with no replacement credentials configured, the forwarded
ClientInfoPDU is identical to the received one in every field except the
flags, which differ exactly by clearing `INFO_COMPRESSION` and the
compression-type mask. -/
theorem c9_no_replacement (pdu : ClientInfoPDU) :
    onClientInfoPDUReceived none none pdu =
      { pdu with flags := andNot pdu.flags (INFO_COMPRESSION ||| INFO_CompressionTypeMask) } := by
  cases pdu with
  | mk un pw fl ex =>
    simp only [onClientInfoPDUReceived, Option.isSome_none, Bool.and_self, Bool.false_and,
      Bool.false_eq_true, if_false, ClientInfoPDU.mk.injEq, true_and, and_true]
    exact andNot_andNot fl _ _

/-! ## Claim C6: recording of client data on Connect Initial -/

/-- C6 counterexample: the CLIENT_DATA event is recorded BEFORE the
`WANT_32BPP` bit is cleared, so for a client that sets the bit the recorded
event still carries it. -/
theorem c6_counterexample :
    ¬ ((onConnectInitial [] ⟨⟨RNS_UD_CS_WANT_32BPP_SESSION, 0⟩, none⟩).recordedData.coreData.earlyCapabilityFlags &&&
        RNS_UD_CS_WANT_32BPP_SESSION = 0) := by
  decide

/-- C6 amended: the recorded CLIENT_DATA event is a snapshot of the
ClientDataPDU exactly as received (flags untouched), while the PDU forwarded
to the server has the `WANT_32BPP` bit cleared. -/
theorem c6_record_then_mutate (prev : List Nat) (cd : ClientDataPDU) :
    (onConnectInitial prev cd).recordedType = PlayerMessageType.CLIENT_DATA ∧
    (onConnectInitial prev cd).recordedData = cd ∧
    (onConnectInitial prev cd).forwarded.coreData.earlyCapabilityFlags &&&
      RNS_UD_CS_WANT_32BPP_SESSION = 0 := by
  refine ⟨rfl, rfl, ?_⟩
  simp only [onConnectInitial]
  exact andNot_and_self _ _

/-! ## Claim C7: connection confirm with NLA failure -/

/-- C7 counterexample: on a `TYPE_RDP_NEG_FAILURE` negotiation response the
client does NOT disconnect; it still forwards the Connection Confirm. -/
theorem c7_counterexample :
    ClientConfirmAction.disconnect ∉ (onConnectionConfirm ⟨TYPE_RDP_NEG_FAILURE, false⟩).1 ∧
    ClientConfirmAction.forwardConnectionConfirm ∈
      (onConnectionConfirm ⟨TYPE_RDP_NEG_FAILURE, false⟩).1 := by
  decide

/-- C7 amended: on an NLA failure the MITM logs the failure but does not
tear down the connection; the Connection Confirm is forwarded and the
sequence continues. -/
theorem c7_log_and_continue (r : NegotiationResponse)
    (h : r.respType = TYPE_RDP_NEG_FAILURE) :
    ClientConfirmAction.logNegotiationFailure ∈ (onConnectionConfirm r).1 ∧
    ClientConfirmAction.disconnect ∉ (onConnectionConfirm r).1 ∧
    ClientConfirmAction.forwardConnectionConfirm ∈ (onConnectionConfirm r).1 := by
  obtain ⟨t, tls⟩ := r
  simp only at h
  subst h
  cases tls <;> decide

theorem c7_witness :
    ClientConfirmAction.logNegotiationFailure ∈ (onConnectionConfirm ⟨3, true⟩).1 ∧
    ClientConfirmAction.disconnect ∉ (onConnectionConfirm ⟨3, true⟩).1 ∧
    ClientConfirmAction.forwardConnectionConfirm ∈ (onConnectionConfirm ⟨3, true⟩).1 :=
  c7_log_and_continue ⟨3, true⟩ rfl

/-! ## Claim C10: response with unknown completion id -/

/-- C10: a DeviceIOResponsePDU whose completionId is not in progress leaves
the stealer state unchanged and is still forwarded to the peer. -/
theorem c10_unknown_completion_id (s : StealerState) (resp : DeviceIOResponsePDU)
    (h : alFind? resp.completionId s.completionIdInProgress = none) :
    onPDUReceived s (.ioResponse resp) = .ok ⟨s, .ioResponse resp, []⟩ := by
  simp only [onPDUReceived, handleIOResponse, h, Option.getD_none]

theorem c10_witness :
    onPDUReceived ⟨[], [], []⟩ (.ioResponse ⟨1, 0, []⟩) =
      .ok ⟨⟨[], [], []⟩, .ioResponse ⟨1, 0, []⟩, []⟩ :=
  c10_unknown_completion_id ⟨[], [], []⟩ ⟨1, 0, []⟩ rfl

/-! ## Claim C3: error containment -/

/-- C3 counterexample: a read request whose fileId is not an opened file of
the peer raises a `KeyError` (the f-string lookup in `handleIORequest`),
which escapes the stealer instead of being contained. -/
theorem c3_counterexample :
    onPDUReceived ⟨[], [], []⟩ (.ioRequest (.read 1 7 0 8)) = .error .keyError := by
  rfl

/-- C3 amended: `onPDUReceived` completes without an escaping error for
every PDU EXCEPT exactly the two `KeyError` situations of
`raisesKeyError`: a read request for a fileId that is not an opened file,
and a response matched to an in-progress read request whose fileId is not
an opened file. -/
theorem c3_keyerror_containment (s : StealerState) (pdu : DeviceRedirectionPDU) :
    isOkE (onPDUReceived s pdu) = !(raisesKeyError s pdu) := by
  cases pdu with
  | ioRequest req =>
    cases req with
    | read cid fid o len =>
      simp only [onPDUReceived, handleIORequest, raisesKeyError]
      cases h : alFind? fid s.openedFiles <;> simp [h, isOkE]
    | create a b c d => rfl
    | close a b => rfl
    | other a b => rfl
  | ioResponse resp =>
    simp only [onPDUReceived, handleIOResponse, raisesKeyError]
    cases h : alFind? resp.completionId s.completionIdInProgress with
    | none => simp [isOkE]
    | some req =>
      cases req with
      | read cid fid o len =>
        cases h2 : alFind? fid s.openedFiles <;> simp [isOkE, h2]
      | create a b c d => simp [isOkE]
      | close a b =>
        cases h2 : alFind? b s.openedFiles <;> simp [isOkE, h2]
      | other a b => simp [isOkE]
  | deviceListAnnounce l => rfl
  | serverCapabilities => rfl
  | clientCapabilities => rfl
  | readResponse a b c => rfl
  | createResponse a b c => rfl
  | otherPDU a => rfl

/-! ## Claim C4: transparency of forwarding -/

/-- C4 counterexample: a response matched to an in-progress read request is
forwarded as the re-parsed `readResponse` PDU, not as the received
`ioResponse` PDU. -/
theorem c4_counterexample :
    onPDUReceived ⟨[(1, .read 1 5 0 4)], [(5, [97, 0])], []⟩ (.ioResponse ⟨1, 0, [97]⟩) =
      .ok ⟨⟨[], [(5, [97, 0])], [([97], [97])]⟩, .readResponse 1 0 [97], []⟩ ∧
    DeviceRedirectionPDU.readResponse 1 0 [97] ≠ .ioResponse ⟨1, 0, [97]⟩ := by
  constructor
  · rfl
  · decide

/-- C4 amended: the PDU forwarded to the peer is the received PDU unchanged,
except when the received PDU is a DeviceIOResponsePDU matched to an
in-progress read or create request, in which case the re-parsed response is
forwarded instead. -/
theorem c4_forward_unless_reparsed (s : StealerState) (pdu : DeviceRedirectionPDU)
    (r : StepResult) (hok : onPDUReceived s pdu = .ok r)
    (hnr : reparsedByStealer s pdu = false) : r.sent = pdu := by
  cases pdu with
  | ioRequest req =>
    cases req with
    | read cid fid o len =>
      simp only [onPDUReceived, handleIORequest] at hok
      cases h : alFind? fid s.openedFiles <;> simp only [h] at hok
      · cases hok
      · simp only [Except.ok.injEq] at hok
        subst hok
        rfl
    | create a b c d =>
      simp only [onPDUReceived, handleIORequest, Except.ok.injEq] at hok
      subst hok
      rfl
    | close a b =>
      simp only [onPDUReceived, handleIORequest, Except.ok.injEq] at hok
      subst hok
      rfl
    | other a b =>
      simp only [onPDUReceived, handleIORequest, Except.ok.injEq] at hok
      subst hok
      rfl
  | ioResponse resp =>
    simp only [onPDUReceived, handleIOResponse] at hok
    simp only [reparsedByStealer] at hnr
    cases h : alFind? resp.completionId s.completionIdInProgress with
    | none =>
      simp only [h, Except.ok.injEq, Option.getD_none] at hok
      subst hok
      rfl
    | some req =>
      cases req with
      | read cid fid o len =>
        simp only [h] at hnr
        exact absurd hnr (by decide)
      | create a b c d =>
        simp only [h] at hnr
        exact absurd hnr (by decide)
      | close a b =>
        cases h2 : alFind? b s.openedFiles <;>
          simp only [h, h2, Except.ok.injEq, Option.getD_none] at hok <;>
          subst hok <;> rfl
      | other a b =>
        simp only [h, Except.ok.injEq, Option.getD_none] at hok
        subst hok
        rfl
  | deviceListAnnounce l =>
    simp only [onPDUReceived, Except.ok.injEq] at hok
    subst hok
    rfl
  | serverCapabilities =>
    simp only [onPDUReceived, Except.ok.injEq] at hok
    subst hok
    rfl
  | clientCapabilities =>
    simp only [onPDUReceived, Except.ok.injEq] at hok
    subst hok
    rfl
  | readResponse a b c =>
    simp only [onPDUReceived, Except.ok.injEq] at hok
    subst hok
    rfl
  | createResponse a b c =>
    simp only [onPDUReceived, Except.ok.injEq] at hok
    subst hok
    rfl
  | otherPDU a =>
    simp only [onPDUReceived, Except.ok.injEq] at hok
    subst hok
    rfl

theorem c4_witness :
    (StepResult.mk ⟨[], [], []⟩ .serverCapabilities []).sent =
      DeviceRedirectionPDU.serverCapabilities :=
  c4_forward_unless_reparsed ⟨[], [], []⟩ .serverCapabilities _ rfl rfl

/-! ## Claim C8: path sanitization -/

/-- C8 counterexample: a remote path whose decoded string starts with a NUL
character.  Python `strip("\x00")` removes LEADING NULs as well, so the
on-disk path differs from the trailing-only trimming the claim describes. -/
theorem c8_counterexample : onDiskPath [0, 0, 97, 0] ≠ claimDiskPath [0, 0, 97, 0] := by
  decide

/-- C8 amended: the on-disk path equals the path decoded from UTF-16LE with
LEADING AND trailing NULs trimmed, backslashes replaced by forward slashes,
occurrences of ".." removed, and "./saved_files/" prepended. -/
theorem c8_sanitization (pathAsBytes : List Nat) :
    onDiskPath pathAsBytes = amendedDiskPath pathAsBytes := rfl

/-! ## Association list lemmas -/

theorem alFind?_insert_self {κ α : Type} [DecidableEq κ] (k : κ) (v : α) (l : List (κ × α)) :
    alFind? k (alInsert k v l) = some v := by
  simp [alInsert, alFind?]

theorem alFind?_erase_ne {κ α : Type} [DecidableEq κ] (k k2 : κ) (l : List (κ × α))
    (h : k ≠ k2) : alFind? k (alErase k2 l) = alFind? k l := by
  induction l with
  | nil => rfl
  | cons p rest ih =>
    obtain ⟨k3, v⟩ := p
    by_cases h3 : k3 = k2
    · subst h3
      have h4 : k3 ≠ k := fun hh => h (hh.symm ▸ rfl)
      simp [alErase, alFind?, h4, ih]
    · by_cases h5 : k3 = k
      · subst h5
        simp [alErase, alFind?, h3]
      · simp [alErase, alFind?, h3, h5, ih]

theorem alFind?_insert_ne {κ α : Type} [DecidableEq κ] (k k2 : κ) (v : α) (l : List (κ × α))
    (h : k ≠ k2) : alFind? k (alInsert k2 v l) = alFind? k l := by
  have h4 : k2 ≠ k := fun hh => h (hh.symm ▸ rfl)
  simp [alInsert, alFind?, h4, alFind?_erase_ne k k2 l h]

/-! ## Buffer lemmas -/

theorem writeAt_append (buf data : List Nat) : writeAt buf buf.length data = buf ++ data := by
  simp [writeAt, Nat.sub_self, List.drop_eq_nil_of_le (Nat.le_add_right buf.length data.length)]

/-! ## Trace composition lemmas -/

theorem processTrace_append (s : StealerState) (l1 l2 : List DeviceRedirectionPDU) :
    processTrace s (l1 ++ l2) =
      match processTrace s l1 with
      | .error e => .error e
      | .ok (s1, w1) =>
        match processTrace s1 l2 with
        | .error e => .error e
        | .ok (s2, w2) => .ok (s2, w1 ++ w2) := by
  induction l1 generalizing s with
  | nil =>
    simp only [List.nil_append, processTrace]
    cases h : processTrace s l2 with
    | error e => rfl
    | ok p =>
      obtain ⟨s2, w2⟩ := p
      simp
  | cons a l1 ih =>
    simp only [List.cons_append, processTrace]
    cases h : onPDUReceived s a with
    | error e => rfl
    | ok r =>
      dsimp only
      simp only [List.append_eq]
      rw [ih]
      cases h1 : processTrace r.state l1 with
      | error e => rfl
      | ok p =>
        obtain ⟨s1, w1⟩ := p
        dsimp only
        cases h2 : processTrace s1 l2 with
        | error e => rfl
        | ok q =>
          obtain ⟨s2, w2⟩ := q
          dsimp only
          simp [List.append_assoc]

/-! ## Claim C1: file reconstruction along a tiling trace -/

theorem processTrace_readPairs (fid : Nat) (pathBytes : List Nat) (buf : List Nat)
    (pairs : List (Nat × List Nat)) :
    processTrace ⟨[], [(fid, pathBytes)], [(bytesToPath pathBytes, buf)]⟩
        (readPairs fid buf.length pairs) =
      .ok (⟨[], [(fid, pathBytes)],
            [(bytesToPath pathBytes, buf ++ (pairs.map Prod.snd).flatten)]⟩, []) := by
  induction pairs generalizing buf with
  | nil => simp [readPairs, processTrace]
  | cons p rest ih =>
    obtain ⟨cid, data⟩ := p
    have ih2 := ih (buf ++ data)
    rw [List.length_append] at ih2
    simp [readPairs, processTrace, onPDUReceived, handleIORequest, handleIOResponse,
      DeviceIORequestPDU.completionId, alInsert, alErase, alFind?, readDataOf,
      writeAt_append, ih2, List.flatten, List.append_assoc]

/-- C1: a Create request/response pair with read intent and the
FILE_NON_DIRECTORY_FILE option, followed by at least one Read
request/response pair tiling the file, followed by a Close request/response
pair for the returned fileId, makes the stealer write the concatenated read
bytes to the sanitized on-disk path and leaves `openedFiles` empty. -/
theorem c1_file_reconstruction (createCid closeCid acc opts fid : Nat)
    (path respPayload closePayload : List Nat) (pairs : List (Nat × List Nat))
    (hacc : acc &&& (GENERIC_READ ||| FILE_READ_DATA) ≠ 0)
    (hopt : opts &&& FILE_NON_DIRECTORY_FILE ≠ 0)
    (hfid : leU32 respPayload = fid)
    (hne : pairs ≠ []) :
    processTrace ⟨[], [], []⟩
        (c1Trace createCid closeCid acc opts fid path respPayload closePayload pairs) =
      .ok (⟨[], [], [(bytesToPath path, (pairs.map Prod.snd).flatten)]⟩,
           [(onDiskPath path, (pairs.map Prod.snd).flatten)]) := by
  cases pairs with
  | nil => exact absurd rfl hne
  | cons p0 rest =>
    obtain ⟨cid0, data0⟩ := p0
    have hp := processTrace_readPairs fid path data0 rest
    simp [c1Trace, readPairs, processTrace, processTrace_append, onPDUReceived,
      handleIORequest, handleIOResponse, DeviceIORequestPDU.completionId,
      alInsert, alErase, alFind?, readDataOf, fileIdOf, hfid, hacc, hopt,
      writeAt, onDiskPath, goodPath, hp, List.flatten]

theorem c1_witness :
    processTrace ⟨[], [], []⟩ (c1Trace 1 3 1 64 7 [97, 0] [7, 0, 0, 0] [] [(2, [10, 20])]) =
      .ok (⟨[], [], [(bytesToPath [97, 0], [10, 20])]⟩, [(onDiskPath [97, 0], [10, 20])]) :=
  c1_file_reconstruction 1 3 1 64 7 [97, 0] [7, 0, 0, 0] [] [(2, [10, 20])]
    (by decide) (by decide) (by decide) (by decide)

/-! ## Buffer index characterization, for order independence -/

theorem writeAt_length (buf : List Nat) (o : Nat) (d : List Nat) :
    (writeAt buf o d).length = max buf.length (o + d.length) := by
  simp [writeAt]
  omega

theorem writeAt_getElem? (buf : List Nat) (o : Nat) (d : List Nat) (i : Nat) :
    (writeAt buf o d)[i]? =
      if o ≤ i ∧ i < o + d.length then d[i - o]?
      else if i < buf.length then buf[i]?
      else if i < o then some 0
      else none := by
  have hext : ∀ j, (buf ++ List.replicate (o - buf.length) 0)[j]? =
      if j < buf.length then buf[j]?
      else if j < max buf.length o then (some 0 : Option Nat) else none := by
    intro j
    by_cases hj : j < buf.length
    · rw [List.getElem?_append_left hj, if_pos hj]
    · rw [List.getElem?_append_right (Nat.le_of_not_lt hj), List.getElem?_replicate,
        if_neg hj]
      split_ifs <;> first | rfl | omega
  have htakelen : ((buf ++ List.replicate (o - buf.length) 0).take o).length = o := by
    simp
    omega
  have hADlen : (((buf ++ List.replicate (o - buf.length) 0).take o) ++ d).length =
      o + d.length := by
    rw [List.length_append, htakelen]
  simp only [writeAt]
  by_cases h1 : i < o
  · rw [List.getElem?_append_left (by rw [hADlen]; omega),
      List.getElem?_append_left (by rw [htakelen]; exact h1),
      List.getElem?_take_of_lt h1, hext i]
    split_ifs <;> first | rfl | omega
  · by_cases h2 : i < o + d.length
    · rw [List.getElem?_append_left (by rw [hADlen]; omega),
        List.getElem?_append_right (by rw [htakelen]; omega), htakelen,
        if_pos ⟨Nat.le_of_not_lt h1, h2⟩]
    · rw [List.getElem?_append_right (by rw [hADlen]; omega), hADlen,
        List.getElem?_drop,
        show o + d.length + (i - (o + d.length)) = i by omega, hext i]
      split_ifs <;> first | rfl | omega

theorem writeAt_comm (b : List Nat) (o1 o2 : Nat) (d1 d2 : List Nat)
    (h : o1 + d1.length ≤ o2 ∨ o2 + d2.length ≤ o1) :
    writeAt (writeAt b o1 d1) o2 d2 = writeAt (writeAt b o2 d2) o1 d1 := by
  apply List.ext_getElem?
  intro i
  rw [writeAt_getElem?, writeAt_getElem?, writeAt_getElem?, writeAt_getElem?,
    writeAt_length, writeAt_length]
  split_ifs <;> first | rfl | omega | (exfalso; omega)

/-! ## Claim C5: request registration and response processing -/

theorem alFind?_insertRequests_of_not_mem (fileId k : Nat)
    (ps : List (Nat × Nat × List Nat)) (m : List (Nat × DeviceIORequestPDU))
    (h : k ∉ ps.map (fun p => p.1)) :
    alFind? k (insertRequests fileId ps m) = alFind? k m := by
  induction ps generalizing m with
  | nil => rfl
  | cons p rest ih =>
    simp only [List.map_cons, List.mem_cons] at h
    push_neg at h
    rw [insertRequests, ih _ h.2, alFind?_insert_ne _ _ _ _ h.1]

theorem alFind?_insertRequests_of_mem (fileId : Nat)
    (ps : List (Nat × Nat × List Nat)) (m : List (Nat × DeviceIORequestPDU))
    (hnd : (ps.map (fun p => p.1)).Nodup)
    (p : Nat × Nat × List Nat) (hp : p ∈ ps) :
    alFind? p.1 (insertRequests fileId ps m) =
      some (.read p.1 fileId p.2.1 p.2.2.length) := by
  induction ps generalizing m with
  | nil => cases hp
  | cons q rest ih =>
    simp only [List.map_cons, List.nodup_cons] at hnd
    rcases List.mem_cons.mp hp with h | h
    · subst h
      rw [insertRequests, alFind?_insertRequests_of_not_mem _ _ _ _ hnd.1,
        alFind?_insert_self]
    · rw [insertRequests]
      exact ih _ hnd.2 h

theorem processTrace_readRequests (fid : Nat) (pathBytes : List Nat)
    (ps : List (Nat × Nat × List Nat)) (m : List (Nat × DeviceIORequestPDU))
    (opened : List (Nat × List Nat)) (ff : List (List Nat × List Nat))
    (hopen : alFind? fid opened = some pathBytes) :
    processTrace ⟨m, opened, ff⟩ (readRequests fid ps) =
      .ok (⟨insertRequests fid ps m, opened, ff⟩, []) := by
  induction ps generalizing m with
  | nil => simp [readRequests, processTrace, insertRequests]
  | cons p rest ih =>
    obtain ⟨cid, off, data⟩ := p
    simp [readRequests, processTrace, onPDUReceived, handleIORequest,
      DeviceIORequestPDU.completionId, hopen, insertRequests, ih]

theorem processTrace_readResponses (fid : Nat) (pathBytes : List Nat)
    (ps : List (Nat × Nat × List Nat)) (m : List (Nat × DeviceIORequestPDU))
    (opened : List (Nat × List Nat)) (ff : List (List Nat × List Nat))
    (hopen : alFind? fid opened = some pathBytes)
    (hfind : ∀ p ∈ ps, alFind? p.1 m = some (.read p.1 fid p.2.1 p.2.2.length))
    (hnd : (ps.map (fun p => p.1)).Nodup) :
    ∃ m2 ff2,
      processTrace ⟨m, opened, ff⟩ (readResponses ps) = .ok (⟨m2, opened, ff2⟩, []) ∧
      (alFind? (bytesToPath pathBytes) ff2).getD [] =
        ps.foldl (fun b p => writeAt b p.2.1 p.2.2)
          ((alFind? (bytesToPath pathBytes) ff).getD []) ∧
      (alFind? (bytesToPath pathBytes) ff2).isSome =
        ((alFind? (bytesToPath pathBytes) ff).isSome || !ps.isEmpty) := by
  induction ps generalizing m ff with
  | nil =>
    refine ⟨m, ff, by simp [readResponses, processTrace], rfl, by simp⟩
  | cons p rest ih =>
    obtain ⟨cid, off, data⟩ := p
    have hfp := hfind (cid, off, data) (List.mem_cons_self _ _)
    simp only at hfp
    simp only [List.map_cons, List.nodup_cons] at hnd
    have hfind2 : ∀ q ∈ rest, alFind? q.1 (alErase cid m) =
        some (.read q.1 fid q.2.1 q.2.2.length) := by
      intro q hq
      have hne : q.1 ≠ cid := by
        intro he
        exact hnd.1 (he ▸ List.mem_map_of_mem (fun p => p.1) hq)
      rw [alFind?_erase_ne _ _ _ hne]
      exact hfind q (List.mem_cons_of_mem _ hq)
    obtain ⟨m2, ff2, hrun, hbuf, hsome⟩ :=
      ih (alErase cid m)
        (alInsert (bytesToPath pathBytes)
          (writeAt ((alFind? (bytesToPath pathBytes) ff).getD []) off data) ff)
        hfind2 hnd.2
    refine ⟨m2, ff2, ?_, ?_, ?_⟩
    · simp [readResponses, processTrace, onPDUReceived, handleIOResponse, hfp, hopen,
        readDataOf, hrun]
    · rw [hbuf, alFind?_insert_self]
      simp
    · rw [hsome, alFind?_insert_self]
      simp

theorem exceptMapSndOk {ε α β : Type} (e : Except ε (α × β)) (w : β)
    (h : e.map Prod.snd = .ok w) : ∃ s, e = .ok (s, w) := by
  cases e with
  | error x => simp [Except.map] at h
  | ok p =>
    obtain ⟨s, w2⟩ := p
    simp only [Except.map, Except.ok.injEq] at h
    exact ⟨s, by rw [h]⟩

theorem c5Trace_writes (createCid closeCid acc opts fid : Nat)
    (path respPayload closePayload : List Nat)
    (ps ro : List (Nat × Nat × List Nat))
    (hacc : acc &&& (GENERIC_READ ||| FILE_READ_DATA) ≠ 0)
    (hopt : opts &&& FILE_NON_DIRECTORY_FILE ≠ 0)
    (hfid : leU32 respPayload = fid)
    (hnd : (ps.map (fun p => p.1)).Nodup)
    (hro : ro.Perm ps) :
    (processTrace ⟨[], [], []⟩
        (c5Trace createCid closeCid acc opts fid path respPayload closePayload ps ro)).map
        Prod.snd =
      .ok (if ro.isEmpty then [] else
        [(onDiskPath path, ro.foldl (fun b p => writeAt b p.2.1 p.2.2) [])]) := by
  have hopen : alFind? fid ([(fid, path)] : List (Nat × List Nat)) = some path := by
    simp [alFind?]
  have hfind : ∀ p ∈ ro, alFind? p.1 (insertRequests fid ps []) =
      some (.read p.1 fid p.2.1 p.2.2.length) := by
    intro p hp
    exact alFind?_insertRequests_of_mem fid ps [] hnd p (hro.subset hp)
  have hndro : (ro.map (fun p => p.1)).Nodup := ((hro.map (fun p => p.1)).nodup_iff).mpr hnd
  obtain ⟨m2, ff2, hrun, hbuf, hsome⟩ :=
    processTrace_readResponses fid path ro (insertRequests fid ps []) [(fid, path)] []
      hopen hfind hndro
  have hreqs := processTrace_readRequests fid path ps [] [(fid, path)] [] hopen
  cases hff : alFind? (bytesToPath path) ff2 with
  | none =>
    have hempty : ro.isEmpty = true := by
      rw [hff] at hsome
      simp [alFind?] at hsome
      simp [hsome]
    simp [c5Trace, processTrace, processTrace_append, onPDUReceived, handleIORequest,
      handleIOResponse, DeviceIORequestPDU.completionId, alInsert, alErase, alFind?,
      fileIdOf, hfid, hacc, hopt, hreqs, hrun, hff, hempty, Except.map]
  | some buf =>
    have hbufeq : buf = ro.foldl (fun b p => writeAt b p.2.1 p.2.2) [] := by
      rw [hff] at hbuf
      simpa [alFind?] using hbuf
    have hnotempty : ro.isEmpty = false := by
      rw [hff] at hsome
      cases he : ro.isEmpty
      · rfl
      · rw [he] at hsome
        simp [alFind?] at hsome
    simp [c5Trace, processTrace, processTrace_append, onPDUReceived, handleIORequest,
      handleIOResponse, DeviceIORequestPDU.completionId, alInsert, alErase, alFind?,
      fileIdOf, hfid, hacc, hopt, hreqs, hrun, hff, hnotempty, hbufeq, Except.map,
      onDiskPath, goodPath]

/-- C5: for a Create/Read*/Close trace whose read requests are registered in
order and whose read responses arrive in any permuted order, with distinct
completionIds and pairwise non-overlapping (or identical) ranges, the bytes
written to disk at Close are the same. -/
theorem c5_read_order_permutation (createCid closeCid acc opts fid : Nat)
    (path respPayload closePayload : List Nat)
    (ps respOrder : List (Nat × Nat × List Nat))
    (hperm : respOrder.Perm ps)
    (hacc : acc &&& (GENERIC_READ ||| FILE_READ_DATA) ≠ 0)
    (hopt : opts &&& FILE_NON_DIRECTORY_FILE ≠ 0)
    (hfid : leU32 respPayload = fid)
    (hnd : (ps.map (fun p => p.1)).Nodup)
    (hdisj : ∀ x ∈ ps, ∀ y ∈ ps,
      x = y ∨ x.2.1 + x.2.2.length ≤ y.2.1 ∨ y.2.1 + y.2.2.length ≤ x.2.1) :
    ∃ s1 s2 w,
      processTrace ⟨[], [], []⟩
          (c5Trace createCid closeCid acc opts fid path respPayload closePayload ps ps) =
        .ok (s1, w) ∧
      processTrace ⟨[], [], []⟩
          (c5Trace createCid closeCid acc opts fid path respPayload closePayload ps respOrder) =
        .ok (s2, w) := by
  have k1 := c5Trace_writes createCid closeCid acc opts fid path respPayload closePayload
    ps ps hacc hopt hfid hnd (List.Perm.refl ps)
  have k2 := c5Trace_writes createCid closeCid acc opts fid path respPayload closePayload
    ps respOrder hacc hopt hfid hnd hperm
  have hie : respOrder.isEmpty = ps.isEmpty := by
    have hl := hperm.length_eq
    cases respOrder <;> cases ps <;> simp_all
  have hfold : respOrder.foldl (fun b p => writeAt b p.2.1 p.2.2) [] =
      ps.foldl (fun b p => writeAt b p.2.1 p.2.2) [] := by
    apply hperm.foldl_eq'
    intro x hx y hy z
    rcases hdisj x (hperm.subset hx) y (hperm.subset hy) with he | hle | hle
    · rw [he]
    · exact writeAt_comm z x.2.1 y.2.1 x.2.2 y.2.2 (Or.inl hle)
    · exact writeAt_comm z x.2.1 y.2.1 x.2.2 y.2.2 (Or.inr hle)
  rw [hie, hfold] at k2
  obtain ⟨s1, h1⟩ := exceptMapSndOk _ _ k1
  obtain ⟨s2, h2⟩ := exceptMapSndOk _ _ k2
  exact ⟨s1, s2, _, h1, h2⟩

theorem c5_witness :
    ∃ s1 s2 w,
      processTrace ⟨[], [], []⟩ (c5Trace 1 3 1 64 7 [97, 0] [7, 0, 0, 0] []
        [(1, 0, [5]), (2, 1, [6])] [(1, 0, [5]), (2, 1, [6])]) = .ok (s1, w) ∧
      processTrace ⟨[], [], []⟩ (c5Trace 1 3 1 64 7 [97, 0] [7, 0, 0, 0] []
        [(1, 0, [5]), (2, 1, [6])] [(2, 1, [6]), (1, 0, [5])]) = .ok (s2, w) :=
  c5_read_order_permutation 1 3 1 64 7 [97, 0] [7, 0, 0, 0] []
    [(1, 0, [5]), (2, 1, [6])] [(2, 1, [6]), (1, 0, [5])]
    (by decide) (by decide) (by decide) (by decide) (by decide) (by decide)
